import Mathlib

/-!
# Parcel tracker: record store and tracking service

A shallow embedding of `internal/parcel/parcel.go` (the `ParcelStore` methods)
and of the `ParcelService` methods of `main.go`.

The Go code talks to a SQL engine through `database/sql`.  The engine is not part
of the repository, so the single table `parcel` is modelled as a list of rows
together with the counter behind the auto-assigned primary key `number`.
Every statement the code issues is one function on that state.  A statement can
be made to fail by the environment: the functions take a fault assignment
`sql.Faults`, and a failed statement leaves the table untouched.

Statements about a call that returns no error are made in the environment
`sql.noFaults`, in which the engine executes every statement; statements about
which errors a call can return, and the invariants, range over all environments.
Store states are the valid ones (`DB.Valid`): `number` is a key and no live
number exceeds the counter; every state reachable through the service is valid
(`Reachable_valid`).

Go's `int` is modelled by `Int`; the code performs no arithmetic on parcel or
client numbers.  Console output (`log.Println`, `fmt.Printf`) is not modelled.
-/

set_option autoImplicit false

namespace sql

/-- Errors surfaced by `database/sql`: the sentinel `sql.ErrNoRows` returned by
`Row.Scan` when the query matched no row, and any other engine-level failure. -/
inductive Error where
  | ErrNoRows
  | engine (code : Nat)
deriving DecidableEq, Repr

/-- The statements issued by the store, one per call site in `parcel.go`. -/
inductive Stmt where
  | insertParcel
  | lastInsertId
  | selectByNumber
  | selectByClient
  | updateStatus
  | updateAddress
  | selectStatus
  | deleteParcel
deriving DecidableEq, Repr

/-- An environment: for each statement, the engine-level failure it hits, if any. -/
abbrev Faults := Stmt → Option Error

/-- The environment in which the engine executes every statement. -/
def noFaults : Faults := fun _ => none

end sql

namespace parcel

open sql

def ParcelStatusRegistered : String := "registered"

def ParcelStatusSent : String := "sent"

def ParcelStatusDelivered : String := "delivered"

/-- The Go struct `Parcel`. -/
structure Parcel where
  Number : Int
  Client : Int
  Status : String
  Address : String
  CreatedAt : String
deriving DecidableEq, Repr

/-- The Go zero value `Parcel{}`. -/
def Parcel.zero : Parcel :=
  { Number := 0, Client := 0, Status := "", Address := "", CreatedAt := "" }

/-- Modelled from the spec: the persisted state behind `*sql.DB`, whose schema is
not in the repository: one table with columns `number` (integer, primary key,
auto-assigned), `client`, `status`, `address`, `created_at`.  `rows` are the live
rows and `seq` is the largest `number` handed out so far. -/
structure DB where
  rows : List Parcel
  seq : Int
deriving DecidableEq, Repr

/-- The store with no rows. -/
def DB.empty : DB := { rows := [], seq := 0 }

/-- The states the engine can be in: `number` is a key, and every live `number`
has been handed out by the counter. -/
def DB.Valid (db : DB) : Prop :=
  db.rows.Pairwise (fun a b => a.Number ≠ b.Number) ∧ ∀ r ∈ db.rows, r.Number ≤ db.seq

instance (db : DB) : Decidable db.Valid := by
  unfold DB.Valid
  exact inferInstance

/-- The `sql.Result` of an `Exec`. -/
structure Result where
  lastInsertId : Int
  rowsAffected : Nat
deriving DecidableEq, Repr

/-- The call `Result.LastInsertId()`. -/
def Result.LastInsertId (f : Faults) (r : Result) : Except Error Int :=
  match f Stmt.lastInsertId with
  | some err => .error err
  | none => .ok r.lastInsertId

/-- Modelled from the spec: the engine executing
`INSERT INTO parcel (client, status, address, created_at) VALUES (...)`;
the new row gets the next `number`. -/
def DB.execInsert (f : Faults) (db : DB) (client : Int) (status address createdAt : String) :
    DB × Except Error Result :=
  match f Stmt.insertParcel with
  | some err => (db, .error err)
  | none =>
    let id := db.seq + 1
    let row : Parcel :=
      { Number := id, Client := client, Status := status, Address := address,
        CreatedAt := createdAt }
    ({ rows := db.rows ++ [row], seq := id }, .ok { lastInsertId := id, rowsAffected := 1 })

/-- Modelled from the spec: the engine executing
`SELECT number, client, status, address, created_at from parcel WHERE number = :number`
followed by `Row.Scan`, which fails with `sql.ErrNoRows` when no row matches. -/
def DB.queryRowByNumber (f : Faults) (db : DB) (number : Int) : Except Error Parcel :=
  match f Stmt.selectByNumber with
  | some err => .error err
  | none =>
    match db.rows.find? (fun r => r.Number == number) with
    | none => .error Error.ErrNoRows
    | some r => .ok r

/-- Modelled from the spec: the engine executing
`SELECT status FROM parcel WHERE number = :number` followed by `Row.Scan`. -/
def DB.queryRowStatus (f : Faults) (db : DB) (number : Int) : Except Error String :=
  match f Stmt.selectStatus with
  | some err => .error err
  | none =>
    match db.rows.find? (fun r => r.Number == number) with
    | none => .error Error.ErrNoRows
    | some r => .ok r.Status

/-- Modelled from the spec: the engine executing
`SELECT number, client, status, address, created_at FROM parcel WHERE client = :client`;
the rows come back in table order. -/
def DB.queryByClient (f : Faults) (db : DB) (client : Int) : Except Error (List Parcel) :=
  match f Stmt.selectByClient with
  | some err => .error err
  | none => .ok (db.rows.filter (fun r => r.Client == client))

/-- The effect of `SET status = :status WHERE number = :number` on one row. -/
def updateStatusRow (number : Int) (status : String) (r : Parcel) : Parcel :=
  if r.Number == number then { r with Status := status } else r

/-- The effect of `SET address = :address WHERE number = :number` on one row. -/
def updateAddressRow (number : Int) (address : String) (r : Parcel) : Parcel :=
  if r.Number == number then { r with Address := address } else r

/-- Modelled from the spec: the engine executing
`UPDATE parcel SET status = :status WHERE number = :number`. -/
def DB.execUpdateStatus (f : Faults) (db : DB) (number : Int) (status : String) :
    DB × Except Error Result :=
  match f Stmt.updateStatus with
  | some err => (db, .error err)
  | none =>
    ({ db with rows := db.rows.map (updateStatusRow number status) },
      .ok { lastInsertId := db.seq,
            rowsAffected := (db.rows.filter (fun r => r.Number == number)).length })

/-- Modelled from the spec: the engine executing
`UPDATE parcel SET address = :address WHERE number = :number`. -/
def DB.execUpdateAddress (f : Faults) (db : DB) (number : Int) (address : String) :
    DB × Except Error Result :=
  match f Stmt.updateAddress with
  | some err => (db, .error err)
  | none =>
    ({ db with rows := db.rows.map (updateAddressRow number address) },
      .ok { lastInsertId := db.seq,
            rowsAffected := (db.rows.filter (fun r => r.Number == number)).length })

/-- Modelled from the spec: the engine executing
`DELETE FROM parcel WHERE number = :number`. -/
def DB.execDelete (f : Faults) (db : DB) (number : Int) : DB × Except Error Result :=
  match f Stmt.deleteParcel with
  | some err => (db, .error err)
  | none =>
    ({ db with rows := db.rows.filter (fun r => !(r.Number == number)) },
      .ok { lastInsertId := db.seq,
            rowsAffected := (db.rows.filter (fun r => r.Number == number)).length })

/-- Method `ParcelStore.Add`: `func (s ParcelStore) Add(p Parcel) (int, error)`. -/
def ParcelStore.Add (f : Faults) (db : DB) (p : Parcel) : DB × Int × Option Error :=
  let p := { p with Status := ParcelStatusRegistered }
  match db.execInsert f p.Client p.Status p.Address p.CreatedAt with
  | (db1, .error err) => (db1, 0, some err)
  | (db1, .ok res) =>
    match res.LastInsertId f with
    | .error err => (db1, 0, some err)
    | .ok id => (db1, id, none)

/-- Method `ParcelStore.Get`: `func (s ParcelStore) Get(number int) (Parcel, error)`. -/
def ParcelStore.Get (f : Faults) (db : DB) (number : Int) : Parcel × Option Error :=
  match db.queryRowByNumber f number with
  | .error err => (Parcel.zero, some err)
  | .ok p => (p, none)

/-- Method `ParcelStore.GetByClient`:
`func (s ParcelStore) GetByClient(client int) ([]Parcel, error)`: the rows of
the result set are appended to `res` one by one. -/
def ParcelStore.GetByClient (f : Faults) (db : DB) (client : Int) :
    List Parcel × Option Error :=
  match db.queryByClient f client with
  | .error err => ([], some err)
  | .ok rows => (rows.foldl (fun res parcel => res ++ [parcel]) [], none)

/-- Method `ParcelStore.SetStatus`:
`func (s ParcelStore) SetStatus(number int, status string) error`. -/
def ParcelStore.SetStatus (f : Faults) (db : DB) (number : Int) (status : String) :
    DB × Option Error :=
  match db.execUpdateStatus f number status with
  | (db1, .error err) => (db1, some err)
  | (db1, .ok _) => (db1, none)

/-- Method `ParcelStore.SetAddress`:
`func (s ParcelStore) SetAddress(number int, address string) error`: the error
of the initial `Get` is only logged, and the guard reads the status of whatever
`Get` returned. -/
def ParcelStore.SetAddress (f : Faults) (db : DB) (number : Int) (address : String) :
    DB × Option Error :=
  let parcel := (ParcelStore.Get f db number).1
  if parcel.Status = ParcelStatusRegistered then
    match db.execUpdateAddress f number address with
    | (db1, .error err) => (db1, some err)
    | (db1, .ok _) => (db1, none)
  else
    (db, none)

/-- Method `ParcelStore.Delete`: `func (s ParcelStore) Delete(number int) error`. -/
def ParcelStore.Delete (f : Faults) (db : DB) (number : Int) : DB × Option Error :=
  match db.queryRowStatus f number with
  | .error err => (db, some err)
  | .ok status =>
    if status = ParcelStatusRegistered then
      match db.execDelete f number with
      | (db1, .error err) => (db1, some err)
      | (db1, .ok _) => (db1, none)
    else
      (db, none)

/-- Method `ParcelService.Register`:
`func (s ParcelService) Register(client int, address string) (parcel.Parcel, error)`;
`now` stands for `time.Now().UTC().Format(time.RFC3339)`. -/
def ParcelService.Register (f : Faults) (db : DB) (now : String) (client : Int)
    (address : String) : DB × Parcel × Option Error :=
  let parcel : Parcel :=
    { Number := 0, Client := client, Status := ParcelStatusRegistered, Address := address,
      CreatedAt := now }
  match ParcelStore.Add f db parcel with
  | (db1, _, some err) => (db1, parcel, some err)
  | (db1, id, none) => (db1, { parcel with Number := id }, none)

/-- Method `ParcelService.NextStatus`:
`func (s ParcelService) NextStatus(number int) error`: when no `case` of the
`switch` matches, `nextStatus` keeps its zero value `""`. -/
def ParcelService.NextStatus (f : Faults) (db : DB) (number : Int) : DB × Option Error :=
  match ParcelStore.Get f db number with
  | (_, some err) => (db, some err)
  | (p, none) =>
    if p.Status = ParcelStatusRegistered then
      ParcelStore.SetStatus f db number ParcelStatusSent
    else if p.Status = ParcelStatusSent then
      ParcelStore.SetStatus f db number ParcelStatusDelivered
    else if p.Status = ParcelStatusDelivered then
      (db, none)
    else
      ParcelStore.SetStatus f db number ""

/-- Method `ParcelService.ChangeAddress`:
`func (s ParcelService) ChangeAddress(number int, address string) error`. -/
def ParcelService.ChangeAddress (f : Faults) (db : DB) (number : Int) (address : String) :
    DB × Option Error :=
  ParcelStore.SetAddress f db number address

/-- Method `ParcelService.Delete`: `func (s ParcelService) Delete(number int) error`. -/
def ParcelService.Delete (f : Faults) (db : DB) (number : Int) : DB × Option Error :=
  ParcelStore.Delete f db number

/-- The store after one call of `NextStatus(number)` with a working engine. -/
def advance (number : Int) (db : DB) : DB :=
  (ParcelService.NextStatus noFaults db number).1

/-- The three statuses of the transition table. -/
def knownStatus (s : String) : Prop :=
  s = ParcelStatusRegistered ∨ s = ParcelStatusSent ∨ s = ParcelStatusDelivered

/-- Position of a status in the chain `registered`, `sent`, `delivered`. -/
def statusRank (s : String) : Nat :=
  if s = ParcelStatusRegistered then 0
  else if s = ParcelStatusSent then 1
  else 2

/-- Store states reachable from the empty store through the service operations
`Register`, `NextStatus`, `ChangeAddress` and `Delete`, each call with its own
arguments and its own environment. -/
inductive Reachable : DB → Prop where
  | empty : Reachable DB.empty
  | register (f : Faults) (db : DB) (now : String) (client : Int) (address : String) :
      Reachable db → Reachable (ParcelService.Register f db now client address).1
  | nextStatus (f : Faults) (db : DB) (number : Int) :
      Reachable db → Reachable (ParcelService.NextStatus f db number).1
  | changeAddress (f : Faults) (db : DB) (number : Int) (address : String) :
      Reachable db → Reachable (ParcelService.ChangeAddress f db number address).1
  | delete (f : Faults) (db : DB) (number : Int) :
      Reachable db → Reachable (ParcelService.Delete f db number).1

/-- The row that `Add(p)` persists under the assigned number `n`. -/
def stored (p : Parcel) (n : Int) : Parcel :=
  { Number := n, Client := p.Client, Status := ParcelStatusRegistered, Address := p.Address,
    CreatedAt := p.CreatedAt }

/-! ## The engine statements on valid states -/

theorem find_none_of_forall_ne (rows : List Parcel) (n : Int)
    (h : ∀ r ∈ rows, r.Number ≠ n) : rows.find? (fun r => r.Number == n) = none := by
  induction rows with
  | nil => rfl
  | cons a l ih =>
    have ha : a.Number ≠ n := h a (List.mem_cons_self a l)
    have hl : ∀ r ∈ l, r.Number ≠ n := fun r hr => h r (List.mem_cons_of_mem a hr)
    have hb : (a.Number == n) = false := by simpa using ha
    rw [List.find?_cons, hb]
    exact ih hl

theorem find_of_mem (rows : List Parcel) (p : Parcel)
    (hkey : rows.Pairwise (fun a b => a.Number ≠ b.Number)) (hp : p ∈ rows) :
    rows.find? (fun r => r.Number == p.Number) = some p := by
  induction rows with
  | nil => cases hp
  | cons a l ih =>
    rw [List.pairwise_cons] at hkey
    rcases List.mem_cons.mp hp with h | h
    · subst h
      simp [List.find?_cons]
    · have hb : (a.Number == p.Number) = false := by simpa using hkey.1 p h
      rw [List.find?_cons, hb]
      exact ih hkey.2 h

theorem mem_of_find (rows : List Parcel) (n : Int) (p : Parcel)
    (h : rows.find? (fun r => r.Number == n) = some p) : p ∈ rows ∧ p.Number = n := by
  refine ⟨List.mem_of_find?_eq_some h, ?_⟩
  have := List.find?_some h
  simpa using this

theorem Get_find (f : Faults) (db : DB) (n : Int) (hf : f Stmt.selectByNumber = none) :
    ParcelStore.Get f db n =
      match db.rows.find? (fun r => r.Number == n) with
      | none => (Parcel.zero, some Error.ErrNoRows)
      | some r => (r, none) := by
  unfold ParcelStore.Get DB.queryRowByNumber
  rw [hf]
  cases db.rows.find? (fun r => r.Number == n) <;> rfl

theorem Get_of_mem (f : Faults) (db : DB) (p : Parcel) (hf : f Stmt.selectByNumber = none)
    (hv : db.Valid) (hp : p ∈ db.rows) : ParcelStore.Get f db p.Number = (p, none) := by
  rw [Get_find f db p.Number hf, find_of_mem db.rows p hv.1 hp]

theorem Get_of_absent (f : Faults) (db : DB) (n : Int) (hf : f Stmt.selectByNumber = none)
    (h : ∀ r ∈ db.rows, r.Number ≠ n) :
    ParcelStore.Get f db n = (Parcel.zero, some Error.ErrNoRows) := by
  rw [Get_find f db n hf, find_none_of_forall_ne db.rows n h]

theorem Add_ok (f : Faults) (db db1 : DB) (p : Parcel) (n : Int)
    (h : ParcelStore.Add f db p = (db1, n, none)) :
    n = db.seq + 1 ∧ db1 = { rows := db.rows ++ [stored p n], seq := n } := by
  unfold ParcelStore.Add DB.execInsert Result.LastInsertId at h
  cases h1 : f Stmt.insertParcel with
  | some e => simp [h1] at h
  | none =>
    cases h2 : f Stmt.lastInsertId with
    | some e => simp [h1, h2] at h
    | none =>
      simp [h1, h2] at h
      obtain ⟨hdb, hn⟩ := h
      subst hn
      exact ⟨rfl, hdb.symm⟩

theorem Valid_insert (db : DB) (row : Parcel) (hv : db.Valid) (hrow : row.Number = db.seq + 1) :
    DB.Valid { rows := db.rows ++ [row], seq := db.seq + 1 } := by
  obtain ⟨hkey, hseq⟩ := hv
  constructor
  · show (db.rows ++ [row]).Pairwise _
    rw [List.pairwise_append]
    refine ⟨hkey, List.pairwise_singleton _ _, ?_⟩
    intro a ha b hb
    rw [List.mem_singleton] at hb
    subst hb
    have := hseq a ha
    omega
  · intro r hr
    show r.Number ≤ db.seq + 1
    rcases List.mem_append.mp hr with h | h
    · have := hseq r h
      omega
    · rw [List.mem_singleton] at h
      subst h
      omega

theorem Add_valid (f : Faults) (db : DB) (p : Parcel) (hv : db.Valid) :
    (ParcelStore.Add f db p).1.Valid := by
  unfold ParcelStore.Add DB.execInsert Result.LastInsertId
  cases h1 : f Stmt.insertParcel with
  | some e => simpa [h1] using hv
  | none =>
    cases h2 : f Stmt.lastInsertId with
    | some e => simpa [h1, h2] using Valid_insert db _ hv rfl
    | none => simpa [h1, h2] using Valid_insert db _ hv rfl

theorem Valid_map (db : DB) (u : Parcel → Parcel) (hu : ∀ r, (u r).Number = r.Number)
    (hv : db.Valid) : DB.Valid { db with rows := db.rows.map u } := by
  obtain ⟨hkey, hseq⟩ := hv
  constructor
  · show (db.rows.map u).Pairwise _
    rw [List.pairwise_map]
    simpa [hu] using hkey
  · intro r hr
    obtain ⟨r0, hr0, rfl⟩ := List.mem_map.mp hr
    rw [hu r0]
    exact hseq r0 hr0

theorem Valid_filter (db : DB) (q : Parcel → Bool) (hv : db.Valid) :
    DB.Valid { db with rows := db.rows.filter q } := by
  obtain ⟨hkey, hseq⟩ := hv
  constructor
  · exact hkey.sublist (List.filter_sublist db.rows)
  · intro r hr
    exact hseq r (List.mem_filter.mp hr).1

theorem updateStatusRow_number (n : Int) (s : String) (r : Parcel) :
    (updateStatusRow n s r).Number = r.Number := by
  unfold updateStatusRow
  split <;> rfl

theorem updateAddressRow_number (n : Int) (a : String) (r : Parcel) :
    (updateAddressRow n a r).Number = r.Number := by
  unfold updateAddressRow
  split <;> rfl

theorem updateStatusRow_status (n : Int) (s : String) (r : Parcel) :
    (updateStatusRow n s r).Status = r.Status ∨ (updateStatusRow n s r).Status = s := by
  unfold updateStatusRow
  split
  · exact Or.inr rfl
  · exact Or.inl rfl

theorem updateAddressRow_status (n : Int) (a : String) (r : Parcel) :
    (updateAddressRow n a r).Status = r.Status := by
  unfold updateAddressRow
  split <;> rfl

theorem map_updateStatusRow_of_absent (rows : List Parcel) (n : Int) (s : String)
    (h : ∀ r ∈ rows, r.Number ≠ n) : rows.map (updateStatusRow n s) = rows := by
  induction rows with
  | nil => rfl
  | cons a l ih =>
    have hb : (a.Number == n) = false := by simpa using h a (List.mem_cons_self a l)
    rw [List.map_cons, ih (fun r hr => h r (List.mem_cons_of_mem a hr))]
    simp [updateStatusRow, hb]

theorem SetStatus_eq (f : Faults) (db : DB) (n : Int) (s : String)
    (hf : f Stmt.updateStatus = none) :
    ParcelStore.SetStatus f db n s =
      ({ db with rows := db.rows.map (updateStatusRow n s) }, none) := by
  unfold ParcelStore.SetStatus DB.execUpdateStatus
  rw [hf]

theorem SetStatus_valid (f : Faults) (db : DB) (n : Int) (s : String) (hv : db.Valid) :
    (ParcelStore.SetStatus f db n s).1.Valid := by
  unfold ParcelStore.SetStatus DB.execUpdateStatus
  cases h : f Stmt.updateStatus with
  | some e => exact hv
  | none =>
    exact Valid_map db _ (updateStatusRow_number n s) hv

theorem Get_after_SetStatus (f g : Faults) (db : DB) (p : Parcel) (s : String)
    (hf : f Stmt.updateStatus = none) (hg : g Stmt.selectByNumber = none)
    (hv : db.Valid) (hp : p ∈ db.rows) :
    ParcelStore.Get g (ParcelStore.SetStatus f db p.Number s).1 p.Number =
      ({ p with Status := s }, none) := by
  have hv1 := SetStatus_valid f db p.Number s hv
  rw [SetStatus_eq f db p.Number s hf] at hv1 ⊢
  have hmem : ({ p with Status := s } : Parcel) ∈
      db.rows.map (updateStatusRow p.Number s) := by
    refine List.mem_map.mpr ⟨p, hp, ?_⟩
    simp [updateStatusRow]
  exact Get_of_mem g _ { p with Status := s } hg hv1 hmem

theorem SetAddress_registered (f : Faults) (db : DB) (p : Parcel) (a : String)
    (hsel : f Stmt.selectByNumber = none) (hupd : f Stmt.updateAddress = none)
    (hv : db.Valid) (hp : p ∈ db.rows) (hs : p.Status = ParcelStatusRegistered) :
    ParcelStore.SetAddress f db p.Number a =
      ({ db with rows := db.rows.map (updateAddressRow p.Number a) }, none) := by
  unfold ParcelStore.SetAddress DB.execUpdateAddress
  rw [Get_of_mem f db p hsel hv hp, hupd]
  simp [hs]

theorem SetAddress_not_registered (f : Faults) (db : DB) (p : Parcel) (a : String)
    (hsel : f Stmt.selectByNumber = none)
    (hv : db.Valid) (hp : p ∈ db.rows) (hs : p.Status ≠ ParcelStatusRegistered) :
    ParcelStore.SetAddress f db p.Number a = (db, none) := by
  unfold ParcelStore.SetAddress
  rw [Get_of_mem f db p hsel hv hp]
  simp [hs]

theorem SetAddress_of_failed_read (f : Faults) (db : DB) (n : Int) (a : String)
    (h : (ParcelStore.Get f db n).2 ≠ none) :
    ParcelStore.SetAddress f db n a = (db, none) := by
  have hz : (ParcelStore.Get f db n).1 = Parcel.zero := by
    unfold ParcelStore.Get at h ⊢
    cases hq : db.queryRowByNumber f n with
    | error e => rfl
    | ok r => simp [hq] at h
  unfold ParcelStore.SetAddress
  rw [hz]
  rfl

theorem queryRowStatus_of_mem (f : Faults) (db : DB) (p : Parcel)
    (hf : f Stmt.selectStatus = none) (hv : db.Valid) (hp : p ∈ db.rows) :
    db.queryRowStatus f p.Number = .ok p.Status := by
  unfold DB.queryRowStatus
  rw [hf, find_of_mem db.rows p hv.1 hp]

theorem queryRowStatus_of_absent (f : Faults) (db : DB) (n : Int)
    (h : ∀ r ∈ db.rows, r.Number ≠ n) : ∃ e, db.queryRowStatus f n = .error e := by
  unfold DB.queryRowStatus
  cases f Stmt.selectStatus with
  | some e => exact ⟨e, rfl⟩
  | none =>
    rw [find_none_of_forall_ne db.rows n h]
    exact ⟨Error.ErrNoRows, rfl⟩

theorem Delete_valid (f : Faults) (db : DB) (n : Int) (hv : db.Valid) :
    (ParcelStore.Delete f db n).1.Valid := by
  unfold ParcelStore.Delete DB.execDelete
  cases db.queryRowStatus f n with
  | error e => exact hv
  | ok st =>
    by_cases hs : st = ParcelStatusRegistered
    · cases hd : f Stmt.deleteParcel with
      | some e => simpa [hs, hd] using hv
      | none => simpa [hs, hd] using Valid_filter db _ hv
    · simpa [hs] using hv

theorem foldl_append_singleton (l acc : List Parcel) :
    l.foldl (fun res parcel => res ++ [parcel]) acc = acc ++ l := by
  induction l generalizing acc with
  | nil => simp
  | cons a l ih => simp [ih]

theorem GetByClient_eq (f : Faults) (db : DB) (c : Int) (hf : f Stmt.selectByClient = none) :
    ParcelStore.GetByClient f db c = (db.rows.filter (fun r => r.Client == c), none) := by
  unfold ParcelStore.GetByClient DB.queryByClient
  rw [hf]
  simp [foldl_append_singleton]

theorem nodup_of_valid (db : DB) (hv : db.Valid) : db.rows.Nodup := by
  refine List.Pairwise.imp ?_ hv.1
  intro a b hab h
  exact hab (by rw [h])

theorem Get_ok_mem (f : Faults) (db : DB) (n : Int) (p : Parcel)
    (h : ParcelStore.Get f db n = (p, none)) : p ∈ db.rows ∧ p.Number = n := by
  unfold ParcelStore.Get DB.queryRowByNumber at h
  cases hf : f Stmt.selectByNumber with
  | some e => simp [hf] at h
  | none =>
    cases hq : db.rows.find? (fun r => r.Number == n) with
    | none => simp [hf, hq] at h
    | some r =>
      simp [hf, hq] at h
      subst h
      exact mem_of_find db.rows n r hq

/-- Every stored status is one of the three statuses of the transition table. -/
def DB.KnownStatuses (db : DB) : Prop := ∀ r ∈ db.rows, knownStatus r.Status

theorem Add_known (f : Faults) (db : DB) (p : Parcel) (h : db.KnownStatuses) :
    (ParcelStore.Add f db p).1.KnownStatuses := by
  have hins : DB.KnownStatuses
      { rows := db.rows ++ [stored p (db.seq + 1)], seq := db.seq + 1 } := by
    intro r hr
    rcases List.mem_append.mp hr with hr | hr
    · exact h r hr
    · rw [List.mem_singleton] at hr
      subst hr
      exact Or.inl rfl
  unfold ParcelStore.Add DB.execInsert Result.LastInsertId
  cases h1 : f Stmt.insertParcel with
  | some e => simpa [h1] using h
  | none =>
    cases h2 : f Stmt.lastInsertId with
    | some e => simpa [h1, h2, stored] using hins
    | none => simpa [h1, h2, stored] using hins

theorem Register_fst (f : Faults) (db : DB) (now : String) (client : Int) (address : String) :
    (ParcelService.Register f db now client address).1 =
      (ParcelStore.Add f db
        { Number := 0, Client := client, Status := ParcelStatusRegistered, Address := address,
          CreatedAt := now }).1 := by
  unfold ParcelService.Register
  dsimp only
  split <;> rename_i h <;> rw [h]

theorem Register_known (f : Faults) (db : DB) (now : String) (client : Int) (address : String)
    (h : db.KnownStatuses) : (ParcelService.Register f db now client address).1.KnownStatuses := by
  rw [Register_fst]
  exact Add_known f db _ h

theorem SetStatus_known (f : Faults) (db : DB) (n : Int) (s : String)
    (h : db.KnownStatuses) (hs : knownStatus s) :
    (ParcelStore.SetStatus f db n s).1.KnownStatuses := by
  unfold ParcelStore.SetStatus DB.execUpdateStatus
  cases hf : f Stmt.updateStatus with
  | some e => exact h
  | none =>
    intro r hr
    obtain ⟨r0, hr0, rfl⟩ := List.mem_map.mp hr
    rcases updateStatusRow_status n s r0 with h1 | h1 <;> rw [h1]
    · exact h r0 hr0
    · exact hs

theorem NextStatus_known (f : Faults) (db : DB) (n : Int) (h : db.KnownStatuses) :
    (ParcelService.NextStatus f db n).1.KnownStatuses := by
  unfold ParcelService.NextStatus
  cases hg : ParcelStore.Get f db n with
  | mk p err =>
    cases err with
    | some e => exact h
    | none =>
      have hp := (Get_ok_mem f db n p hg).1
      show DB.KnownStatuses (Prod.fst (if _ then _ else _))
      split
      · exact SetStatus_known f db n _ h (Or.inr (Or.inl rfl))
      · split
        · exact SetStatus_known f db n _ h (Or.inr (Or.inr rfl))
        · split
          · exact h
          · rename_i h1 h2 h3
            rcases h p hp with h4 | h4 | h4
            · exact absurd h4 h1
            · exact absurd h4 h2
            · exact absurd h4 h3

theorem SetAddress_known (f : Faults) (db : DB) (n : Int) (a : String)
    (h : db.KnownStatuses) : (ParcelStore.SetAddress f db n a).1.KnownStatuses := by
  unfold ParcelStore.SetAddress DB.execUpdateAddress
  show DB.KnownStatuses (Prod.fst (if _ then _ else _))
  split
  · cases hf : f Stmt.updateAddress with
    | some e => exact h
    | none =>
      intro r hr
      obtain ⟨r0, hr0, rfl⟩ := List.mem_map.mp hr
      rw [updateAddressRow_status]
      exact h r0 hr0
  · exact h

theorem Delete_known (f : Faults) (db : DB) (n : Int) (h : db.KnownStatuses) :
    (ParcelStore.Delete f db n).1.KnownStatuses := by
  unfold ParcelStore.Delete DB.execDelete
  cases db.queryRowStatus f n with
  | error e => exact h
  | ok st =>
    show DB.KnownStatuses (Prod.fst (if _ then _ else _))
    split
    · cases hf : f Stmt.deleteParcel with
      | some e => exact h
      | none =>
        intro r hr
        exact h r (List.mem_filter.mp hr).1
    · exact h

theorem Reachable_known (db : DB) (h : Reachable db) : db.KnownStatuses := by
  induction h with
  | empty =>
    intro r hr
    cases hr
  | register f db now client address _ ih => exact Register_known f db now client address ih
  | nextStatus f db number _ ih => exact NextStatus_known f db number ih
  | changeAddress f db number address _ ih => exact SetAddress_known f db number address ih
  | delete f db number _ ih => exact Delete_known f db number ih

theorem NextStatus_registered (db : DB) (p : Parcel) (hv : db.Valid) (hp : p ∈ db.rows)
    (hs : p.Status = ParcelStatusRegistered) :
    ParcelService.NextStatus noFaults db p.Number =
      ParcelStore.SetStatus noFaults db p.Number ParcelStatusSent := by
  unfold ParcelService.NextStatus
  rw [Get_of_mem noFaults db p rfl hv hp]
  simp [hs]

theorem NextStatus_sent (db : DB) (p : Parcel) (hv : db.Valid) (hp : p ∈ db.rows)
    (hs : p.Status = ParcelStatusSent) :
    ParcelService.NextStatus noFaults db p.Number =
      ParcelStore.SetStatus noFaults db p.Number ParcelStatusDelivered := by
  have h1 : ParcelStatusSent ≠ ParcelStatusRegistered := by decide
  unfold ParcelService.NextStatus
  rw [Get_of_mem noFaults db p rfl hv hp]
  simp [hs, h1]

theorem NextStatus_delivered (db : DB) (p : Parcel) (hv : db.Valid) (hp : p ∈ db.rows)
    (hs : p.Status = ParcelStatusDelivered) :
    ParcelService.NextStatus noFaults db p.Number = (db, none) := by
  have h1 : ParcelStatusDelivered ≠ ParcelStatusRegistered := by decide
  have h2 : ParcelStatusDelivered ≠ ParcelStatusSent := by decide
  unfold ParcelService.NextStatus
  rw [Get_of_mem noFaults db p rfl hv hp]
  simp [hs, h1, h2]

theorem mem_after_SetStatus (db : DB) (p : Parcel) (s : String) (hp : p ∈ db.rows) :
    ({ p with Status := s } : Parcel) ∈
      (ParcelStore.SetStatus noFaults db p.Number s).1.rows := by
  rw [SetStatus_eq noFaults db p.Number s rfl]
  refine List.mem_map.mpr ⟨p, hp, ?_⟩
  simp [updateStatusRow]

theorem advance_stable (n : Int) (db : DB) (h : advance n db = db) (k : Nat) :
    (advance n)^[k] db = db := by
  induction k with
  | zero => rfl
  | succ k ih => rw [Function.iterate_succ_apply, h, ih]

/-- The first three store states of repeated `NextStatus` calls on a stored
`registered` parcel, with the rows read back at each of them. -/
theorem advance_trace (db : DB) (p : Parcel) (hv : db.Valid) (hp : p ∈ db.rows)
    (hs : p.Status = ParcelStatusRegistered) :
    (ParcelService.NextStatus noFaults db p.Number).2 = none ∧
    (ParcelService.NextStatus noFaults (advance p.Number db) p.Number).2 = none ∧
    (ParcelService.NextStatus noFaults (advance p.Number (advance p.Number db)) p.Number).2
      = none ∧
    ParcelStore.Get noFaults (advance p.Number db) p.Number =
      ({ p with Status := ParcelStatusSent }, none) ∧
    ParcelStore.Get noFaults (advance p.Number (advance p.Number db)) p.Number =
      ({ p with Status := ParcelStatusDelivered }, none) ∧
    advance p.Number (advance p.Number (advance p.Number db)) =
      advance p.Number (advance p.Number db) := by
  have e1 := NextStatus_registered db p hv hp hs
  have hv1 : (advance p.Number db).Valid := by
    unfold advance
    rw [e1]
    exact SetStatus_valid noFaults db p.Number _ hv
  have hp1 : ({ p with Status := ParcelStatusSent } : Parcel) ∈ (advance p.Number db).rows := by
    unfold advance
    rw [e1]
    exact mem_after_SetStatus db p _ hp
  have e2 := NextStatus_sent (advance p.Number db) { p with Status := ParcelStatusSent }
    hv1 hp1 rfl
  have hv2 : (advance p.Number (advance p.Number db)).Valid := by
    rw [show advance p.Number (advance p.Number db) =
      (ParcelService.NextStatus noFaults (advance p.Number db) p.Number).1 from rfl]
    rw [e2]
    exact SetStatus_valid noFaults _ p.Number _ hv1
  have hp2 : ({ p with Status := ParcelStatusDelivered } : Parcel) ∈
      (advance p.Number (advance p.Number db)).rows := by
    rw [show advance p.Number (advance p.Number db) =
      (ParcelService.NextStatus noFaults (advance p.Number db) p.Number).1 from rfl]
    rw [e2]
    exact mem_after_SetStatus (advance p.Number db) { p with Status := ParcelStatusSent } _ hp1
  have e3 := NextStatus_delivered (advance p.Number (advance p.Number db))
    { p with Status := ParcelStatusDelivered } hv2 hp2 rfl
  refine ⟨?_, ?_, ?_, ?_, ?_, ?_⟩
  · rw [e1, SetStatus_eq noFaults db p.Number _ rfl]
  · rw [e2, SetStatus_eq noFaults _ p.Number _ rfl]
  · rw [e3]
  · exact Get_of_mem noFaults _ { p with Status := ParcelStatusSent } rfl hv1 hp1
  · exact Get_of_mem noFaults _ { p with Status := ParcelStatusDelivered } rfl hv2 hp2
  · rw [show advance p.Number (advance p.Number (advance p.Number db)) =
      (ParcelService.NextStatus noFaults (advance p.Number (advance p.Number db)) p.Number).1
      from rfl]
    rw [e3]

theorem advance_from_two (db : DB) (p : Parcel) (hv : db.Valid) (hp : p ∈ db.rows)
    (hs : p.Status = ParcelStatusRegistered) (k : Nat) :
    (advance p.Number)^[k + 2] db = advance p.Number (advance p.Number db) := by
  have h := (advance_trace db p hv hp hs).2.2.2.2.2
  rw [Function.iterate_add_apply]
  exact advance_stable p.Number _ h k

theorem SetAddress_valid (f : Faults) (db : DB) (n : Int) (a : String) (hv : db.Valid) :
    (ParcelStore.SetAddress f db n a).1.Valid := by
  unfold ParcelStore.SetAddress DB.execUpdateAddress
  show DB.Valid (Prod.fst (if _ then _ else _))
  split
  · cases hf : f Stmt.updateAddress with
    | some e => exact hv
    | none => exact Valid_map db _ (updateAddressRow_number n a) hv
  · exact hv

theorem NextStatus_valid (f : Faults) (db : DB) (n : Int) (hv : db.Valid) :
    (ParcelService.NextStatus f db n).1.Valid := by
  unfold ParcelService.NextStatus
  cases hg : ParcelStore.Get f db n with
  | mk p err =>
    cases err with
    | some e => exact hv
    | none =>
      show DB.Valid (Prod.fst (if _ then _ else _))
      split
      · exact SetStatus_valid f db n _ hv
      · split
        · exact SetStatus_valid f db n _ hv
        · split
          · exact hv
          · exact SetStatus_valid f db n _ hv

/-- Every state reachable through the service is a valid engine state. -/
theorem Reachable_valid (db : DB) (h : Reachable db) : db.Valid := by
  induction h with
  | empty => decide
  | register f db now client address _ ih =>
    rw [Register_fst]
    exact Add_valid f db _ ih
  | nextStatus f db number _ ih => exact NextStatus_valid f db number ih
  | changeAddress f db number address _ ih => exact SetAddress_valid f db number address ih
  | delete f db number _ ih => exact Delete_valid f db number ih

/-! ## Claims -/

/-- C1: in every valid store state, when `Add(p)` succeeds and returns `n`, a following
`Get(n)` (its query executed by the engine) succeeds and returns the record with
`Number = n`, the client, address and creation time of `p`, and status `registered`,
whatever status `p` carried. -/
theorem C1_get_after_add (f g : Faults) (db db1 : DB) (p : Parcel) (n : Int)
    (hv : db.Valid) (hg : g Stmt.selectByNumber = none)
    (hadd : ParcelStore.Add f db p = (db1, n, none)) :
    ParcelStore.Get g db1 n =
      ({ Number := n, Client := p.Client, Status := "registered", Address := p.Address,
         CreatedAt := p.CreatedAt }, none) := by
  obtain ⟨hn, hdb⟩ := Add_ok f db db1 p n hadd
  have hv1 : db1.Valid := by
    have := Add_valid f db p hv
    rw [hadd] at this
    exact this
  have hmem : stored p n ∈ db1.rows := by
    rw [hdb]
    simp
  exact Get_of_mem g db1 (stored p n) hg hv1 hmem

theorem C1_get_after_add_witness :
    ParcelStore.Get noFaults
        { rows := [{ Number := 1, Client := 5, Status := "sent", Address := "a",
                     CreatedAt := "t0" },
                   { Number := 2, Client := 7, Status := "registered", Address := "b",
                     CreatedAt := "t1" }],
          seq := 2 } 2 =
      ({ Number := 2, Client := 7, Status := "registered", Address := "b",
         CreatedAt := "t1" }, none) :=
  C1_get_after_add noFaults noFaults
    { rows := [{ Number := 1, Client := 5, Status := "sent", Address := "a",
                 CreatedAt := "t0" }], seq := 1 }
    _ { Number := 0, Client := 7, Status := "delivered", Address := "b", CreatedAt := "t1" } 2
    (by decide) rfl (by decide)

/-- C2: in every valid store state and for every stored parcel `p` with number `n`,
`SetAddress(n, a)` returns no error; afterwards `Get(n)` succeeds and returns `p` with
address `a` when the status of `p` was `registered`, and returns `p` itself (address
unchanged, the store untouched) when the status was `sent` or `delivered`. -/
theorem C2_set_address (db : DB) (p : Parcel) (a : String)
    (hv : db.Valid) (hp : p ∈ db.rows) :
    (ParcelStore.SetAddress noFaults db p.Number a).2 = none ∧
    (p.Status = "registered" →
      ParcelStore.Get noFaults (ParcelStore.SetAddress noFaults db p.Number a).1 p.Number =
        ({ p with Address := a }, none)) ∧
    (p.Status = "sent" ∨ p.Status = "delivered" →
      (ParcelStore.SetAddress noFaults db p.Number a).1 = db ∧
      ParcelStore.Get noFaults (ParcelStore.SetAddress noFaults db p.Number a).1 p.Number =
        (p, none)) := by
  by_cases hs : p.Status = ParcelStatusRegistered
  · have hset := SetAddress_registered noFaults db p a rfl rfl hv hp hs
    refine ⟨by rw [hset], ?_, ?_⟩
    · intro _
      have hv1 : DB.Valid { db with rows := db.rows.map (updateAddressRow p.Number a) } :=
        Valid_map db _ (updateAddressRow_number p.Number a) hv
      have hmem : ({ p with Address := a } : Parcel) ∈
          db.rows.map (updateAddressRow p.Number a) := by
        refine List.mem_map.mpr ⟨p, hp, ?_⟩
        simp [updateAddressRow]
      rw [hset]
      exact Get_of_mem noFaults _ { p with Address := a } rfl hv1 hmem
    · intro h
      have hno : ¬ (ParcelStatusRegistered = "sent" ∨ ParcelStatusRegistered = "delivered") := by
        decide
      rw [hs] at h
      exact absurd h hno
  · have hset := SetAddress_not_registered noFaults db p a rfl hv hp hs
    refine ⟨by rw [hset], fun h => absurd h hs, fun _ => ?_⟩
    rw [hset]
    exact ⟨rfl, Get_of_mem noFaults db p rfl hv hp⟩

theorem C2_set_address_witness :
    (ParcelStore.SetAddress noFaults
        { rows := [{ Number := 1, Client := 5, Status := "registered", Address := "A1",
                     CreatedAt := "t0" }], seq := 1 } 1 "A2").2 = none ∧
    ParcelStore.Get noFaults (ParcelStore.SetAddress noFaults
        { rows := [{ Number := 1, Client := 5, Status := "registered", Address := "A1",
                     CreatedAt := "t0" }], seq := 1 } 1 "A2").1 1 =
      ({ Number := 1, Client := 5, Status := "registered", Address := "A2",
         CreatedAt := "t0" }, none) :=
  have h := C2_set_address
    { rows := [{ Number := 1, Client := 5, Status := "registered", Address := "A1",
                 CreatedAt := "t0" }], seq := 1 }
    { Number := 1, Client := 5, Status := "registered", Address := "A1", CreatedAt := "t0" }
    "A2" (by decide) (by decide)
  ⟨h.1, h.2.1 rfl⟩

/-- C3: in every valid store state and for every stored parcel `p` with number `n` whose
status is `sent` or `delivered`, `Delete(n)` returns no error and leaves the whole store
unchanged, so that `Get(n)` still succeeds and returns `p`, status included. -/
theorem C3_delete_refused (db : DB) (p : Parcel)
    (hv : db.Valid) (hp : p ∈ db.rows) (hs : p.Status = "sent" ∨ p.Status = "delivered") :
    ParcelStore.Delete noFaults db p.Number = (db, none) ∧
    ParcelStore.Get noFaults (ParcelStore.Delete noFaults db p.Number).1 p.Number =
      (p, none) := by
  have hne : p.Status ≠ ParcelStatusRegistered := by
    rcases hs with h | h <;> rw [h] <;> decide
  have hdel : ParcelStore.Delete noFaults db p.Number = (db, none) := by
    unfold ParcelStore.Delete
    rw [queryRowStatus_of_mem noFaults db p rfl hv hp]
    simp [hne]
  refine ⟨hdel, ?_⟩
  rw [hdel]
  exact Get_of_mem noFaults db p rfl hv hp

theorem C3_delete_refused_witness :
    ParcelStore.Delete noFaults
        { rows := [{ Number := 4, Client := 1, Status := "sent", Address := "A1",
                     CreatedAt := "t0" }], seq := 6 } 4 =
      ({ rows := [{ Number := 4, Client := 1, Status := "sent", Address := "A1",
                    CreatedAt := "t0" }], seq := 6 }, none) :=
  (C3_delete_refused
    { rows := [{ Number := 4, Client := 1, Status := "sent", Address := "A1",
                 CreatedAt := "t0" }], seq := 6 }
    { Number := 4, Client := 1, Status := "sent", Address := "A1", CreatedAt := "t0" }
    (by decide) (by decide) (Or.inl rfl)).1

/-- C4: in every valid store state and for every stored parcel with number `n` whose
status is `registered`, `Delete(n)` returns no error, and afterwards `Get(n)` fails with
`sql.ErrNoRows` and returns the empty `Parcel` value. -/
theorem C4_delete_registered (db : DB) (p : Parcel)
    (hv : db.Valid) (hp : p ∈ db.rows) (hs : p.Status = "registered") :
    (ParcelStore.Delete noFaults db p.Number).2 = none ∧
    ParcelStore.Get noFaults (ParcelStore.Delete noFaults db p.Number).1 p.Number =
      (Parcel.zero, some Error.ErrNoRows) := by
  have hdel : ParcelStore.Delete noFaults db p.Number =
      ({ db with rows := db.rows.filter (fun r => !(r.Number == p.Number)) }, none) := by
    unfold ParcelStore.Delete DB.execDelete
    rw [queryRowStatus_of_mem noFaults db p rfl hv hp]
    simp [hs, ParcelStatusRegistered, noFaults]
  rw [hdel]
  refine ⟨rfl, Get_of_absent noFaults _ p.Number rfl ?_⟩
  intro r hr
  have := (List.mem_filter.mp hr).2
  simpa using this

theorem C4_delete_registered_witness :
    ParcelStore.Get noFaults (ParcelStore.Delete noFaults
        { rows := [{ Number := 4, Client := 1, Status := "registered", Address := "A1",
                     CreatedAt := "t0" }], seq := 6 } 4).1 4 =
      (Parcel.zero, some Error.ErrNoRows) :=
  (C4_delete_registered
    { rows := [{ Number := 4, Client := 1, Status := "registered", Address := "A1",
                 CreatedAt := "t0" }], seq := 6 }
    { Number := 4, Client := 1, Status := "registered", Address := "A1", CreatedAt := "t0" }
    (by decide) (by decide) rfl).2

/-- C5: in every valid store state and for every stored parcel `p` with number `n` and
status `registered`, every call in a run of repeated `NextStatus(n)` calls returns no
error; `Get(n)` reads status `sent` after the first call and `delivered` after the
second and after every later call, each later call leaving the store unchanged; from one
call to the next the status never moves back and never moves more than one step along
`registered`, `sent`, `delivered`. -/
theorem C5_next_status_chain (db : DB) (p : Parcel)
    (hv : db.Valid) (hp : p ∈ db.rows) (hs : p.Status = "registered") :
    (∀ k : Nat,
      (ParcelService.NextStatus noFaults ((advance p.Number)^[k] db) p.Number).2 = none) ∧
    ParcelStore.Get noFaults ((advance p.Number)^[1] db) p.Number =
      ({ p with Status := "sent" }, none) ∧
    (∀ k : Nat, 2 ≤ k →
      ParcelStore.Get noFaults ((advance p.Number)^[k] db) p.Number =
        ({ p with Status := "delivered" }, none) ∧
      (advance p.Number)^[k + 1] db = (advance p.Number)^[k] db) ∧
    (∀ k : Nat,
      statusRank (ParcelStore.Get noFaults ((advance p.Number)^[k] db) p.Number).1.Status ≤
        statusRank
          (ParcelStore.Get noFaults ((advance p.Number)^[k + 1] db) p.Number).1.Status ∧
      statusRank (ParcelStore.Get noFaults ((advance p.Number)^[k + 1] db) p.Number).1.Status ≤
        statusRank
          (ParcelStore.Get noFaults ((advance p.Number)^[k] db) p.Number).1.Status + 1) := by
  obtain ⟨t0, t1, t2, g1, g2, _⟩ := advance_trace db p hv hp hs
  have two := advance_from_two db p hv hp hs
  have g0 : ParcelStore.Get noFaults db p.Number = (p, none) :=
    Get_of_mem noFaults db p rfl hv hp
  have it1 : (advance p.Number)^[1] db = advance p.Number db := rfl
  refine ⟨?_, ?_, ?_, ?_⟩
  · intro k
    match k with
    | 0 => exact t0
    | 1 => exact t1
    | k + 2 =>
      rw [two k]
      exact t2
  · rw [it1]
    exact g1
  · intro k hk
    obtain ⟨m, rfl⟩ : ∃ m, k = m + 2 := ⟨k - 2, by omega⟩
    rw [show m + 2 + 1 = (m + 1) + 2 from rfl, two m, two (m + 1)]
    exact ⟨g2, rfl⟩
  · intro k
    match k with
    | 0 =>
      rw [show (0 : Nat) + 1 = 1 from rfl, it1, g1]
      rw [show (advance p.Number)^[0] db = db from rfl, g0]
      show statusRank p.Status ≤ statusRank ParcelStatusSent ∧
        statusRank ParcelStatusSent ≤ statusRank p.Status + 1
      rw [hs]
      decide
    | 1 =>
      rw [show (1 : Nat) + 1 = 0 + 2 from rfl, two 0, g2, it1, g1]
      show statusRank ParcelStatusSent ≤ statusRank ParcelStatusDelivered ∧
        statusRank ParcelStatusDelivered ≤ statusRank ParcelStatusSent + 1
      decide
    | k + 2 =>
      rw [show k + 2 + 1 = (k + 1) + 2 from rfl, two k, two (k + 1), g2]
      show statusRank ParcelStatusDelivered ≤ statusRank ParcelStatusDelivered ∧
        statusRank ParcelStatusDelivered ≤ statusRank ParcelStatusDelivered + 1
      decide

theorem C5_next_status_chain_witness :
    ParcelStore.Get noFaults ((advance 4)^[1]
        { rows := [{ Number := 4, Client := 1, Status := "registered", Address := "A1",
                     CreatedAt := "t0" }], seq := 4 }) 4 =
      ({ Number := 4, Client := 1, Status := "sent", Address := "A1", CreatedAt := "t0" },
        none) :=
  (C5_next_status_chain
    { rows := [{ Number := 4, Client := 1, Status := "registered", Address := "A1",
                 CreatedAt := "t0" }], seq := 4 }
    { Number := 4, Client := 1, Status := "registered", Address := "A1", CreatedAt := "t0" }
    (by decide) (by decide) rfl).2.1

/-- C6: in every valid store state and for every client id `C`, `GetByClient(C)` returns
no error and a collection in which every stored parcel of client `C` occurs exactly once
and every element is a stored parcel of client `C`; it is empty when no stored parcel has
client `C`.  After three successful `Add` calls with parcels of a client `C` that no
stored parcel had, it returns, up to order, exactly the three stored records with their
assigned numbers. -/
theorem C6_get_by_client (db : DB) (C : Int) (hv : db.Valid) :
    (ParcelStore.GetByClient noFaults db C).2 = none ∧
    (∀ p ∈ db.rows, p.Client = C → (ParcelStore.GetByClient noFaults db C).1.count p = 1) ∧
    (∀ p ∈ (ParcelStore.GetByClient noFaults db C).1, p ∈ db.rows ∧ p.Client = C) ∧
    ((∀ p ∈ db.rows, p.Client ≠ C) → (ParcelStore.GetByClient noFaults db C).1 = []) ∧
    (∀ (f1 f2 f3 : Faults) (p1 p2 p3 : Parcel) (db1 db2 db3 : DB) (n1 n2 n3 : Int),
      (∀ p ∈ db.rows, p.Client ≠ C) →
      p1.Client = C → p2.Client = C → p3.Client = C →
      ParcelStore.Add f1 db p1 = (db1, n1, none) →
      ParcelStore.Add f2 db1 p2 = (db2, n2, none) →
      ParcelStore.Add f3 db2 p3 = (db3, n3, none) →
      (ParcelStore.GetByClient noFaults db3 C).2 = none ∧
      (ParcelStore.GetByClient noFaults db3 C).1.Perm
        [stored p1 n1, stored p2 n2, stored p3 n3]) := by
  rw [GetByClient_eq noFaults db C rfl]
  refine ⟨rfl, ?_, ?_, ?_, ?_⟩
  · intro p hp hc
    have hnd : (db.rows.filter (fun r => r.Client == C)).Nodup :=
      (nodup_of_valid db hv).filter _
    have hmem : p ∈ db.rows.filter (fun r => r.Client == C) :=
      List.mem_filter.mpr ⟨hp, by simpa using hc⟩
    exact List.count_eq_one_of_mem hnd hmem
  · intro p hp
    have := List.mem_filter.mp hp
    exact ⟨this.1, by simpa using this.2⟩
  · intro h
    show db.rows.filter (fun r => r.Client == C) = []
    rw [List.filter_eq_nil_iff]
    intro r hr
    simpa using h r hr
  · intro f1 f2 f3 p1 p2 p3 db1 db2 db3 n1 n2 n3 habs h1 h2 h3 a1 a2 a3
    obtain ⟨_, e1⟩ := Add_ok f1 db db1 p1 n1 a1
    obtain ⟨_, e2⟩ := Add_ok f2 db1 db2 p2 n2 a2
    obtain ⟨_, e3⟩ := Add_ok f3 db2 db3 p3 n3 a3
    have hnil : db.rows.filter (fun r => r.Client == C) = [] := by
      rw [List.filter_eq_nil_iff]
      intro r hr
      simpa using habs r hr
    rw [GetByClient_eq noFaults db3 C rfl]
    refine ⟨rfl, ?_⟩
    have heq : db3.rows.filter (fun r => r.Client == C) =
        [stored p1 n1, stored p2 n2, stored p3 n3] := by
      rw [e3, e2, e1]
      simp [List.filter_append, hnil, stored, h1, h2, h3, List.filter_cons]
    show (db3.rows.filter (fun r => r.Client == C)).Perm _
    rw [heq]

theorem C6_get_by_client_witness :
    (ParcelStore.GetByClient noFaults
        { rows := [{ Number := 1, Client := 5, Status := "sent", Address := "a",
                     CreatedAt := "t0" },
                   { Number := 2, Client := 7, Status := "registered", Address := "b",
                     CreatedAt := "t1" }],
          seq := 2 } 7).1.count
        { Number := 2, Client := 7, Status := "registered", Address := "b",
          CreatedAt := "t1" } = 1 :=
  (C6_get_by_client
    { rows := [{ Number := 1, Client := 5, Status := "sent", Address := "a",
                 CreatedAt := "t0" },
               { Number := 2, Client := 7, Status := "registered", Address := "b",
                 CreatedAt := "t1" }],
      seq := 2 } 7 (by decide)).2.1
    { Number := 2, Client := 7, Status := "registered", Address := "b", CreatedAt := "t1" }
    (by decide) rfl

/-- C7: in every valid store state, for every number `n` and every status string `s`,
`SetStatus(n, s)` returns no error; for a stored parcel `p` with number `n`, `Get(n)`
afterwards returns `p` with status `s` and every other field unchanged; when no stored
parcel has number `n` the store is unchanged. -/
theorem C7_set_status (db : DB) (n : Int) (s : String) (hv : db.Valid) :
    (ParcelStore.SetStatus noFaults db n s).2 = none ∧
    (∀ p ∈ db.rows, p.Number = n →
      ParcelStore.Get noFaults (ParcelStore.SetStatus noFaults db n s).1 n =
        ({ Number := p.Number, Client := p.Client, Status := s, Address := p.Address,
           CreatedAt := p.CreatedAt }, none)) ∧
    ((∀ r ∈ db.rows, r.Number ≠ n) → (ParcelStore.SetStatus noFaults db n s).1 = db) := by
  refine ⟨by rw [SetStatus_eq noFaults db n s rfl], ?_, ?_⟩
  · intro p hp hn
    subst hn
    exact Get_after_SetStatus noFaults noFaults db p s rfl rfl hv hp
  · intro h
    rw [SetStatus_eq noFaults db n s rfl]
    show ({ db with rows := db.rows.map (updateStatusRow n s) } : DB) = db
    rw [map_updateStatusRow_of_absent db.rows n s h]

theorem C7_set_status_witness :
    ParcelStore.Get noFaults (ParcelStore.SetStatus noFaults
        { rows := [{ Number := 4, Client := 1, Status := "delivered", Address := "A1",
                     CreatedAt := "t0" }], seq := 6 } 4 "registered").1 4 =
      ({ Number := 4, Client := 1, Status := "registered", Address := "A1",
         CreatedAt := "t0" }, none) :=
  (C7_set_status
    { rows := [{ Number := 4, Client := 1, Status := "delivered", Address := "A1",
                 CreatedAt := "t0" }], seq := 6 } 4 "registered" (by decide)).2.1
    { Number := 4, Client := 1, Status := "delivered", Address := "A1", CreatedAt := "t0" }
    (by decide) rfl

/-- C8: evaluation of the code where the claim fails.  On the empty store the initial
read of parcel `1` fails with `sql.ErrNoRows`, and `SetAddress(1, "A2")` nevertheless
returns no error (the store stays untouched). -/
theorem C8_set_address_swallows_read_error :
    ParcelStore.Get noFaults DB.empty 1 = (Parcel.zero, some Error.ErrNoRows) ∧
    ParcelStore.SetAddress noFaults DB.empty 1 "A2" = (DB.empty, none) := by
  decide

/-- C9: for every number `n` that no stored parcel has, `Delete(n)` fails with
`sql.ErrNoRows` and leaves the store unchanged (under any environment it fails and
leaves the store unchanged); and whenever `Delete` returns an error, that error is the
one of its initial status read or, the status read having returned `registered`, the
one of its delete statement; a status other than `registered` never yields an error. -/
theorem C9_delete_errors (f : Faults) (db : DB) (n : Int) :
    ((∀ r ∈ db.rows, r.Number ≠ n) →
      ParcelStore.Delete noFaults db n = (db, some Error.ErrNoRows) ∧
      (ParcelStore.Delete f db n).1 = db ∧ (ParcelStore.Delete f db n).2 ≠ none) ∧
    (∀ e, (ParcelStore.Delete f db n).2 = some e →
      db.queryRowStatus f n = .error e ∨
      (db.queryRowStatus f n = .ok "registered" ∧ (db.execDelete f n).2 = .error e)) ∧
    (∀ st, db.queryRowStatus f n = .ok st → st ≠ "registered" →
      ParcelStore.Delete f db n = (db, none)) := by
  refine ⟨?_, ?_, ?_⟩
  · intro h
    refine ⟨?_, ?_⟩
    · unfold ParcelStore.Delete DB.queryRowStatus
      simp [noFaults, find_none_of_forall_ne db.rows n h]
    · obtain ⟨e, he⟩ := queryRowStatus_of_absent f db n h
      unfold ParcelStore.Delete
      rw [he]
      simp
  · intro e he
    unfold ParcelStore.Delete at he
    cases hq : db.queryRowStatus f n with
    | error e1 =>
      rw [hq] at he
      simp at he
      exact Or.inl (by rw [he])
    | ok st =>
      rw [hq] at he
      by_cases hs : st = ParcelStatusRegistered
      · subst hs
        right
        refine ⟨rfl, ?_⟩
        cases hd : db.execDelete f n with
        | mk db1 res =>
          cases res with
          | error e1 =>
            simp [hd] at he
            simp [he]
          | ok r => simp [hd] at he
      · simp [hs] at he
  · intro st hq hs
    unfold ParcelStore.Delete
    rw [hq]
    have hs1 : st ≠ ParcelStatusRegistered := hs
    simp [hs1]

theorem C9_delete_errors_witness :
    ParcelStore.Delete noFaults
        { rows := [{ Number := 4, Client := 1, Status := "registered", Address := "A1",
                     CreatedAt := "t0" }], seq := 6 } 5 =
      ({ rows := [{ Number := 4, Client := 1, Status := "registered", Address := "A1",
                    CreatedAt := "t0" }], seq := 6 }, some Error.ErrNoRows) :=
  ((C9_delete_errors noFaults
    { rows := [{ Number := 4, Client := 1, Status := "registered", Address := "A1",
                 CreatedAt := "t0" }], seq := 6 } 5).1 (by decide)).1

/-- C10: in every store state reachable from the empty store through the service
operations `Register`, `NextStatus`, `ChangeAddress` and `Delete` (any arguments, any
order, any environment), every stored status is `registered`, `sent` or `delivered`;
and in such a state every stored status is still one of the three after a further
`NextStatus` call. -/
theorem C10_reachable_statuses (db : DB) (h : Reachable db) :
    (∀ r ∈ db.rows,
      r.Status = "registered" ∨ r.Status = "sent" ∨ r.Status = "delivered") ∧
    (∀ (f : Faults) (n : Int), ∀ r ∈ (ParcelService.NextStatus f db n).1.rows,
      r.Status = "registered" ∨ r.Status = "sent" ∨ r.Status = "delivered") :=
  ⟨Reachable_known db h, fun f n => NextStatus_known f db n (Reachable_known db h)⟩

theorem C10_reachable_statuses_witness :
    ({ Number := 1, Client := 1, Status := "sent", Address := "A1", CreatedAt := "t0" } : Parcel)
        ∈ (ParcelService.NextStatus noFaults
            (ParcelService.Register noFaults DB.empty "t0" 1 "A1").1 1).1.rows ∧
    knownStatus
      ({ Number := 1, Client := 1, Status := "sent", Address := "A1",
         CreatedAt := "t0" } : Parcel).Status :=
  ⟨by decide,
    (C10_reachable_statuses _
      (Reachable.nextStatus noFaults _ 1
        (Reachable.register noFaults DB.empty "t0" 1 "A1" Reachable.empty))).1
      { Number := 1, Client := 1, Status := "sent", Address := "A1", CreatedAt := "t0" }
      (by decide)⟩

end parcel
